import Mathlib

/-!
# Verification of the elephant-ai memory subsystem and logging utilities

Shallow embedding of:
* `src/elephant/utils/logging.py` — the loguru-based logging wrapper
  (`setup_logger`, `get_logger`), embedded directly from the source.
* the layered memory subsystem (`Memory` facade, the four memory-type
  variants, the `DocumentStore` layer) — the modules `memory/core.py`,
  `memory/types/*.py`, `memory/storage/document_store.py` are re-exported
  by `src/elephant/memory/__init__.py` but their code is not in the
  repository snapshot, so those components are modelled from the spec.
-/

/-! ## Logging (`src/elephant/utils/logging.py`) -/

/-- Default log format string (`DEFAULT_FORMAT` in the source). Loguru
template braces are text here, written with escapes. -/
def DEFAULT_FORMAT : String :=
  "<green>\x7btime:YYYY-MM-DD HH:mm:ss.SSS\x7d</green> | <level>\x7blevel: <8\x7d</level> | <cyan>\x7bname\x7d</cyan>:<cyan>\x7bfunction\x7d</cyan>:<cyan>\x7bline\x7d</cyan> - <level>\x7bmessage\x7d</level>"

/-- Simple log format string (`SIMPLE_FORMAT` in the source). -/
def SIMPLE_FORMAT : String :=
  "<green>\x7btime:YYYY-MM-DD HH:mm:ss\x7d</green> | <level>\x7blevel: <8\x7d</level> | <level>\x7bmessage\x7d</level>"

/-- Verbose log format string (`VERBOSE_FORMAT` in the source). -/
def VERBOSE_FORMAT : String :=
  "<green>\x7btime:YYYY-MM-DD HH:mm:ss.SSS\x7d</green> | <level>\x7blevel: <8\x7d</level> | <cyan>\x7bname\x7d</cyan>:<cyan>\x7bfunction\x7d</cyan>:<cyan>\x7bline\x7d</cyan> | <blue>\x7bprocess\x7d</blue>:<blue>\x7bthread\x7d</blue> - <level>\x7bmessage\x7d</level>"

/-- Where a loguru sink writes: the console (`sys.stderr`) or a file path. -/
inductive SinkTarget where
  | stderr : SinkTarget
  | file (path : String) : SinkTarget
deriving DecidableEq, Repr

/-- One handler registered on the global loguru logger via `logger.add`. -/
structure Sink where
  target : SinkTarget
  format : String
  level : String
deriving DecidableEq, Repr

/-- The observable state of the module-level loguru logger: its registered
sinks and the module flag `_initialized`. -/
structure LogState where
  sinks : List Sink
  initialized : Bool
deriving DecidableEq, Repr

/-- The keyword arguments of `setup_logger` that affect sink structure and
format selection. -/
structure SetupArgs where
  level : String
  format_style : String
  custom_format : Option String
  log_to_file : Bool
  log_file_path : Option String
deriving DecidableEq, Repr

/-- The default arguments of `setup_logger` (its Python signature defaults). -/
def defaultSetupArgs : SetupArgs :=
  { level := "INFO", format_style := "default", custom_format := none,
    log_to_file := false, log_file_path := none }

/-- Format selection in `setup_logger`: `custom_format` wins if given,
otherwise `format_map.get(format_style, DEFAULT_FORMAT)`. -/
def chooseFormat (custom : Option String) (style : String) : String :=
  match custom with
  | some f => f
  | none =>
    if style = "default" then DEFAULT_FORMAT
    else if style = "simple" then SIMPLE_FORMAT
    else if style = "verbose" then VERBOSE_FORMAT
    else DEFAULT_FORMAT

/-- Default log file path used when `log_to_file=True` but no path is given. -/
def defaultLogFilePath : String := "logs/elephant_ai_\x7btime:YYYY-MM-DD\x7d.log"

/-- `setup_logger`: removes all existing handlers (`logger.remove()`), picks
the format, adds one console sink, adds one file sink iff `log_to_file`,
and sets the `_initialized` flag. -/
def setup_logger (a : SetupArgs) (s : LogState) : LogState :=
  let s1 : LogState := { s with sinks := [] }
  let fmt := chooseFormat a.custom_format a.format_style
  let s2 : LogState :=
    { s1 with sinks := s1.sinks ++ [{ target := .stderr, format := fmt, level := a.level }] }
  let s3 : LogState :=
    if a.log_to_file then
      let path := a.log_file_path.getD defaultLogFilePath
      { s2 with sinks := s2.sinks ++ [{ target := .file path, format := fmt, level := a.level }] }
    else s2
  { s3 with initialized := true }

/-- The value `get_logger` hands back: the global logger, or the global
logger with a bound `module` context (`logger.bind(module=name)`). -/
inductive LoggerHandle where
  | plain : LoggerHandle
  | bound (module : String) : LoggerHandle
deriving DecidableEq, Repr

/-- `get_logger(name)`: initializes with defaults if `_initialized` is not
yet set, then returns `logger.bind(module=name)` when `if name:` holds —
i.e. `name` is neither `None` nor the empty string (Python truthiness) —
and the global logger otherwise. -/
def get_logger (name : Option String) (s : LogState) : LoggerHandle × LogState :=
  let s1 := if s.initialized then s else setup_logger defaultSetupArgs s
  match name with
  | some n => if n = "" then (.plain, s1) else (.bound n, s1)
  | none => (.plain, s1)

/-! ## Memory subsystem data model

Modelled from the spec: the modules `memory/core.py`, `memory/types/*.py`
and `memory/storage/document_store.py` are re-exported by
`src/elephant/memory/__init__.py` but absent from the snapshot, so
`Memo`, `Config`, `DocumentStore`, the four memory variants and the
`Memory` facade below follow the spec's §3–§4 wording. -/

/-- The four memory types of the hierarchy. -/
inductive MemoryType where
  | working : MemoryType
  | episodic : MemoryType
  | semantic : MemoryType
  | perceptual : MemoryType
deriving DecidableEq, Repr

/-- Modelled from the spec (§7): the error taxonomy of the memory core. -/
inductive MemoryError where
  | invalidInput : MemoryError
  | configuration : MemoryError
  | notFound : MemoryError
  | storage : MemoryError
deriving DecidableEq, Repr

/-- Modelled from the spec (§3): the memory record DTO. Embedding entries
stand for 64-bit float bit patterns (naturals below `2 ^ 64`). -/
structure Memo where
  id : Nat
  content : String
  memoryType : MemoryType
  createdAt : Nat
  lastAccessedAt : Nat
  importance : ℚ
  embedding : List Nat
  metadata : List (String × String)
deriving DecidableEq, Repr

/-- Modelled from the spec (§3): the immutable configuration bundle. The
content classifier for semantic promotion is the pluggable predicate of
§4.2. -/
structure Config where
  workingCapacity : Nat
  episodicRetention : Nat
  perceptualCapacity : Nat
  promotionThreshold : ℚ
  isGeneralizable : String → Bool

/-- Does the character sequence `need` occur at the start of `hay`? -/
def seqStarts : List Char → List Char → Bool
  | _, [] => true
  | [], _ :: _ => false
  | h :: hs, n :: ns => h == n && seqStarts hs ns

/-- Does the character sequence `need` occur anywhere inside `hay`? -/
def seqContains (hay need : List Char) : Bool :=
  match hay with
  | [] => need.isEmpty
  | _ :: t => seqStarts hay need || seqContains t need

/-- Modelled from the spec (§4.2, §4.3): a keyword query matches a memo if
the query is empty (a "show me what's salient" probe) or occurs in the
content. -/
def matchesQuery (q : String) (m : Memo) : Bool :=
  decide (q = "") || seqContains m.content.data q.data

/-- Modelled from the spec: the embedding assigned to text content for
similarity search (a stand-in embedder mapping characters to codepoints;
the spec leaves the embedder external). -/
def embedText (s : String) : List Nat :=
  s.data.map (fun c => c.toNat)

/-- L1 distance between two embedding vectors, missing entries read as 0. -/
def embedDist : List Nat → List Nat → Nat
  | [], [] => 0
  | [], b :: bs => b + embedDist [] bs
  | a :: as1, [] => a + embedDist as1 []
  | a :: as1, b :: bs => (if a ≤ b then b - a else a - b) + embedDist as1 bs

/-- Insertion step of `sortBy`. -/
def insertBy (le : Memo → Memo → Bool) (a : Memo) : List Memo → List Memo
  | [] => [a]
  | b :: bs => if le a b then a :: b :: bs else b :: insertBy le a bs

/-- Insertion sort by a boolean "comes-no-later-than" relation. -/
def sortBy (le : Memo → Memo → Bool) : List Memo → List Memo
  | [] => []
  | a :: as1 => insertBy le a (sortBy le as1)

/-! ## DocumentStore layer -/

/-- Modelled from the spec (§4.1): the observable state of one memory
variant's document store. `failing` models an underlying persistence
failure (disk full, corruption, transaction failure) that makes writes
raise `StorageError`. -/
structure StoreState where
  records : List Memo
  failing : Bool
deriving DecidableEq, Repr

/-- `DocumentStore.put`: persists a memo with overwrite semantics on an
existing id; a failing store raises `StorageError` and changes nothing. -/
def DocumentStore.put (m : Memo) (st : StoreState) : Except MemoryError StoreState :=
  if st.failing then .error .storage
  else .ok { st with records := (st.records.filter (fun x => x.id != m.id)) ++ [m] }

/-- `DocumentStore.get`: exact lookup by id. -/
def DocumentStore.get (id : Nat) (st : StoreState) : Option Memo :=
  st.records.find? (fun m => m.id == id)

/-- `DocumentStore.delete`: removes a record, returning whether it existed;
a delete of an unknown id is a no-op returning false, never an error. -/
def DocumentStore.delete (id : Nat) (st : StoreState) : Bool × StoreState :=
  if st.records.any (fun m => m.id == id) then
    (true, { st with records := st.records.filter (fun m => m.id != id) })
  else (false, st)

/-- `DocumentStore.count`: the number of stored records. -/
def DocumentStore.count (st : StoreState) : Nat :=
  st.records.length

/-! ## Memory facade state and routing -/

/-- Modelled from the spec (§2–§3): the `Memory` facade owns one store per
memory-type variant, a shared id counter (ids are globally unique within a
user namespace) and a logical clock for timestamps. -/
structure MemoryState where
  working : StoreState
  episodic : StoreState
  semantic : StoreState
  perceptual : StoreState
  nextId : Nat
  clock : Nat
deriving DecidableEq, Repr

/-- The store owned by a given memory-type variant. -/
def variantStore (t : MemoryType) (s : MemoryState) : StoreState :=
  match t with
  | .working => s.working
  | .episodic => s.episodic
  | .semantic => s.semantic
  | .perceptual => s.perceptual

/-- Replace the store owned by a given memory-type variant. -/
def setVariantStore (t : MemoryType) (st : StoreState) (s : MemoryState) : MemoryState :=
  match t with
  | .working => { s with working := st }
  | .episodic => { s with episodic := st }
  | .semantic => { s with semantic := st }
  | .perceptual => { s with perceptual := st }

/-- A fresh facade state: empty, healthy stores. -/
def initMemoryState : MemoryState :=
  { working := { records := [], failing := false },
    episodic := { records := [], failing := false },
    semantic := { records := [], failing := false },
    perceptual := { records := [], failing := false },
    nextId := 0, clock := 0 }

/-- Modelled from the spec (§4.3): the simple content classifier used when
no `memory_type` is given — short transient text goes to working memory,
longer declarative text to semantic memory. -/
def classifyContent (content : String) : MemoryType :=
  if content.length ≤ 50 then .working else .semantic

/-- Importance must lie in `[0, 1]` when supplied (spec §3, §7). -/
def validImportance : Option ℚ → Bool
  | none => true
  | some i => decide (0 ≤ i) && decide (i ≤ 1)

/-- Eviction keep-order: higher importance first; among equals, newer
first — so the item dropped last from the end is the
lowest-importance-then-oldest one (spec §4.2 eviction policy). -/
def keepOrder (m1 m2 : Memo) : Bool :=
  (m2.importance < m1.importance) ||
    (m1.importance == m2.importance && m2.createdAt ≤ m1.createdAt)

/-- Capacity eviction (spec §4.2): while the store is over its configured
limit, the lowest-importance-then-oldest item is dropped — i.e. the best
`cap` records by `keepOrder` are kept. -/
def evictKeep (cap : Nat) (l : List Memo) : List Memo :=
  if l.length ≤ cap then l else (sortBy keepOrder l).take cap

/-- Whether a variant's store supports similarity search and hence stores
an embedding (spec §3: present only for such types). -/
def usesEmbedding : MemoryType → Bool
  | .semantic => true
  | .perceptual => true
  | _ => false

/-- The eviction pass a variant's `add` applies after persisting (spec
§4.2 table): working and perceptual memory enforce a capacity, episodic
and semantic memory do not evict on `add`. -/
def addEvictionPass (cfg : Config) (t : MemoryType) (l : List Memo) : List Memo :=
  match t with
  | .working => evictKeep cfg.workingCapacity l
  | .perceptual => evictKeep cfg.perceptualCapacity l
  | _ => l

/-- Modelled from the spec (§4.3, §6): `Memory.add` — validates the input,
classifies the content when no type is given, builds the `Memo` (fresh id,
current clock, default importance 1/2), persists it via the owning
variant's `DocumentStore.put`, and applies the variant's capacity-eviction
pass. Returns the new memo's id. -/
def Memory.add (cfg : Config) (content : String) (mtIn : Option MemoryType)
    (impIn : Option ℚ) (md : List (String × String)) (s : MemoryState) :
    Except MemoryError (Nat × MemoryState) :=
  if content = "" then .error .invalidInput
  else if !(validImportance impIn) then .error .invalidInput
  else
    let mt := mtIn.getD (classifyContent content)
    let memo : Memo :=
      { id := s.nextId, content := content, memoryType := mt,
        createdAt := s.clock, lastAccessedAt := s.clock,
        importance := impIn.getD (1 / 2 : ℚ),
        embedding := if usesEmbedding mt then embedText content else [],
        metadata := md }
    match DocumentStore.put memo (variantStore mt s) with
    | .error e => .error e
    | .ok st1 =>
      let st2 : StoreState := { st1 with records := addEvictionPass cfg mt st1.records }
      let s1 := setVariantStore mt st2 s
      .ok (memo.id, { s1 with nextId := s.nextId + 1, clock := s.clock + 1 })

/-! ## Retrieval -/

/-- Recency order: newest first (spec §4.2: working/episodic retrieval is
ordered by recency). -/
def recencyOrder (m1 m2 : Memo) : Bool :=
  m2.createdAt ≤ m1.createdAt

/-- Similarity order against a query embedding: smaller distance first,
ties broken by importance (spec §4.2: semantic retrieval is ordered by
similarity score, ties broken by importance). -/
def simOrder (q : List Nat) (m1 m2 : Memo) : Bool :=
  embedDist q m1.embedding < embedDist q m2.embedding ||
    (embedDist q m1.embedding == embedDist q m2.embedding &&
      decide (m2.importance ≤ m1.importance))

/-- Salience order for an empty query (spec §4.3 edge policy: the
most-recent/most-important items): importance first, recency second. -/
def salienceOrder (m1 m2 : Memo) : Bool :=
  (m2.importance < m1.importance) ||
    (m1.importance == m2.importance && m2.createdAt ≤ m1.createdAt)

/-- Modelled from the spec (§4.2 table, §4.3 edge policy): one variant's
`retrieve` — keyword filter in recency order for working/episodic memory,
similarity search over embeddings for semantic/perceptual memory, with an
empty query answered by the most-important/most-recent items; at most
`limit` records, best first. -/
def variantRetrieve (t : MemoryType) (q : String) (limit : Nat) (st : StoreState) :
    List Memo :=
  match t with
  | .working => (sortBy recencyOrder (st.records.filter (matchesQuery q))).take limit
  | .episodic => (sortBy recencyOrder (st.records.filter (matchesQuery q))).take limit
  | .semantic =>
    if q = "" then (sortBy salienceOrder st.records).take limit
    else (sortBy (simOrder (embedText q)) st.records).take limit
  | .perceptual =>
    if q = "" then (sortBy salienceOrder st.records).take limit
    else (sortBy (simOrder (embedText q)) st.records).take limit

/-- Deduplication by id, keeping the first occurrence (spec §4.3). -/
def dedupeById : List Memo → List Memo
  | [] => []
  | m :: rest => m :: dedupeById (rest.filter (fun x => x.id != m.id))
termination_by l => l.length
decreasing_by
  exact Nat.lt_succ_of_le (List.length_filter_le _ _)

/-- Combined cross-variant ranking (spec §4.3 leaves the exact weights
open; the model ranks by importance, ties broken by recency). -/
def combinedOrder (m1 m2 : Memo) : Bool :=
  (m2.importance < m1.importance) ||
    (m1.importance == m2.importance && m2.createdAt ≤ m1.createdAt)

/-- All four memory types, in facade fan-out order. -/
def allMemoryTypes : List MemoryType :=
  [.working, .episodic, .semantic, .perceptual]

/-- Mark the records with the returned ids as accessed now (spec §4.3:
`retrieve` updates `last_accessed_at` on every returned memo). -/
def touchStore (ids : List Nat) (clock : Nat) (st : StoreState) : StoreState :=
  { st with records := (st.records.map
      (fun m => if ids.contains m.id then { m with lastAccessedAt := clock } else m)) }

/-- Modelled from the spec (§4.3, §6): `Memory.retrieve` — fans the query
out to each selected variant, deduplicates by id, ranks by the combined
score, truncates to `limit`, and updates `last_accessed_at` on every
returned memo. A `StorageError` from a selected store propagates (spec
§7); an empty query is not an error. -/
def Memory.retrieve (q : String) (typesIn : Option (List MemoryType)) (limit : Nat)
    (s : MemoryState) : Except MemoryError (List Memo × MemoryState) :=
  let ts := typesIn.getD allMemoryTypes
  if ts.any (fun t => (variantStore t s).failing) then .error .storage
  else
    let gathered := ts.flatMap (fun t => variantRetrieve t q limit (variantStore t s))
    let ranked := (sortBy combinedOrder (dedupeById gathered)).take limit
    let ids := ranked.map (fun m => m.id)
    let out := ranked.map (fun m => { m with lastAccessedAt := s.clock })
    let s1 : MemoryState :=
      { s with working := touchStore ids s.clock s.working,
               episodic := touchStore ids s.clock s.episodic,
               semantic := touchStore ids s.clock s.semantic,
               perceptual := touchStore ids s.clock s.perceptual }
    .ok (out, s1)

/-! ## Forget -/

/-- Modelled from the spec (§4.3): `Memory.forget` — locates the owning
variant by scanning in fan-out order and delegates to
`DocumentStore.delete`; returns whether a record was removed. -/
def Memory.forget (id : Nat) (s : MemoryState) : Bool × MemoryState :=
  match DocumentStore.delete id s.working with
  | (true, st) => (true, { s with working := st })
  | (false, _) =>
    match DocumentStore.delete id s.episodic with
    | (true, st) => (true, { s with episodic := st })
    | (false, _) =>
      match DocumentStore.delete id s.semantic with
      | (true, st) => (true, { s with semantic := st })
      | (false, _) =>
        match DocumentStore.delete id s.perceptual with
        | (true, st) => (true, { s with perceptual := st })
        | (false, _) => (false, s)

/-! ## Consolidation -/

/-- Modelled from the spec (§4.2): promotion builds a *new* memo — fresh
id, the target memory type, fresh timestamps — and records provenance by
referencing the source memo's id in `metadata`. -/
def promoteMemo (src : Memo) (target : MemoryType) (newId : Nat) (now : Nat) : Memo :=
  { id := newId, content := src.content, memoryType := target,
    createdAt := now, lastAccessedAt := now, importance := src.importance,
    embedding := src.embedding,
    metadata := ("source_id", toString src.id) :: src.metadata }

/-- Promote one working-memory item: copy it into episodic memory
unconditionally and into semantic memory when the pluggable classifier
deems it a generalizable fact (spec §4.2). The source record is left in
place. -/
def promoteOne (cfg : Config) (src : Memo) (s : MemoryState) : MemoryState :=
  let epiMemo := promoteMemo src .episodic s.nextId s.clock
  let s1 : MemoryState :=
    { s with episodic := { s.episodic with records := s.episodic.records ++ [epiMemo] },
             nextId := s.nextId + 1 }
  if cfg.isGeneralizable src.content then
    let semMemo := promoteMemo src .semantic s1.nextId s1.clock
    { s1 with semantic := { s1.semantic with records := s1.semantic.records ++ [semMemo] },
              nextId := s1.nextId + 1 }
  else s1

/-- Promote every candidate in order. -/
def promoteAll (cfg : Config) (cands : List Memo) (s : MemoryState) : MemoryState :=
  cands.foldl (fun st m => promoteOne cfg m st) s

/-- The working variant's consolidation step: promote every item whose
importance reaches the configured threshold (spec §4.2). A persistence
failure on any store the transaction touches raises `StorageError` and
changes nothing. -/
def consolidateWorking (cfg : Config) (s : MemoryState) : Except MemoryError MemoryState :=
  if s.working.failing || s.episodic.failing || s.semantic.failing then .error .storage
  else
    let cands := s.working.records.filter
      (fun m => decide (cfg.promotionThreshold ≤ m.importance))
    .ok (promoteAll cfg cands s)

/-- The episodic variant's consolidation step: age-based decay — drop
records older than the retention window (spec §4.2 table). -/
def consolidateEpisodic (cfg : Config) (s : MemoryState) : Except MemoryError MemoryState :=
  if s.episodic.failing then .error .storage
  else .ok { s with episodic := { s.episodic with records :=
    (s.episodic.records.filter (fun m => decide (s.clock ≤ m.createdAt + cfg.episodicRetention))) } }

/-- The semantic variant's consolidation step: semantic memory is
unbounded and decays only by explicit deletion (spec §4.2 table), so this
is a health check alone. -/
def consolidateSemantic (s : MemoryState) : Except MemoryError MemoryState :=
  if s.semantic.failing then .error .storage
  else .ok s

/-- The perceptual variant's consolidation step: enforce the perceptual
capacity, dropping lowest-importance records (spec §4.2 table). -/
def consolidatePerceptual (cfg : Config) (s : MemoryState) : Except MemoryError MemoryState :=
  if s.perceptual.failing then .error .storage
  else .ok { s with perceptual := { s.perceptual with records :=
    (evictKeep cfg.perceptualCapacity s.perceptual.records) } }

/-- The summary `Memory.consolidate` returns: how many promotions ran and
which variants' consolidation failed. -/
structure ConsolidateSummary where
  promoted : Nat
  errors : List MemoryType
deriving DecidableEq, Repr

/-- Modelled from the spec (§4.3, §7): `Memory.consolidate` — runs each
variant's consolidation in fan-out order; a per-variant `StorageError` is
caught and recorded in the summary and the remaining variants still run
(partial-failure isolation), so the call never raises to its caller. -/
def Memory.consolidate (cfg : Config) (s : MemoryState) : ConsolidateSummary × MemoryState :=
  let (e1, s1) :=
    match consolidateWorking cfg s with
    | .ok t => (([] : List MemoryType), t)
    | .error _ => ([MemoryType.working], s)
  let (e2, s2) :=
    match consolidateEpisodic cfg s1 with
    | .ok t => (([] : List MemoryType), t)
    | .error _ => ([MemoryType.episodic], s1)
  let (e3, s3) :=
    match consolidateSemantic s2 with
    | .ok t => (([] : List MemoryType), t)
    | .error _ => ([MemoryType.semantic], s2)
  let (e4, s4) :=
    match consolidatePerceptual cfg s3 with
    | .ok t => (([] : List MemoryType), t)
    | .error _ => ([MemoryType.perceptual], s3)
  ({ promoted := s1.nextId - s.nextId, errors := e1 ++ e2 ++ e3 ++ e4 }, s4)

/-! ## SQLite document store: serialized rows -/

/-- Little-endian byte serialization of one stored word (`w` bytes). -/
def natToBytes : Nat → Nat → List Nat
  | 0, _ => []
  | w + 1, n => n % 256 :: natToBytes w (n / 256)

/-- Read a little-endian byte list back into a number. -/
def bytesToNat : List Nat → Nat
  | [] => 0
  | b :: bs => b + 256 * bytesToNat bs

/-- Modelled from the spec (§6): an embedding vector is serialized as a
fixed-length binary blob of 64-bit words, 8 bytes each, little-endian. -/
def serializeEmbedding (v : List Nat) : List Nat :=
  v.flatMap (natToBytes 8)

/-- Deserialize an embedding blob: read it back 8 bytes at a time. -/
def deserializeEmbedding (b : List Nat) : List Nat :=
  if h : b = [] then []
  else bytesToNat (b.take 8) :: deserializeEmbedding (b.drop 8)
termination_by b.length
decreasing_by
  cases b with
  | nil => exact absurd rfl h
  | cons x xs => simp [List.length_drop]; omega

/-- Modelled from the spec (§4.1, §6): one row of the SQLite-backed store —
the embedding is held as a serialized blob. -/
structure SQLiteRow where
  id : Nat
  content : String
  memoryType : MemoryType
  createdAt : Nat
  lastAccessedAt : Nat
  importance : ℚ
  embeddingBlob : List Nat
  metadata : List (String × String)
deriving DecidableEq, Repr

/-- The SQLite-backed document store: a relational table of rows. -/
structure SQLiteStore where
  rows : List SQLiteRow
deriving DecidableEq, Repr

/-- Serialize a memo into a table row. -/
def memoToRow (m : Memo) : SQLiteRow :=
  { id := m.id, content := m.content, memoryType := m.memoryType,
    createdAt := m.createdAt, lastAccessedAt := m.lastAccessedAt,
    importance := m.importance,
    embeddingBlob := serializeEmbedding m.embedding,
    metadata := m.metadata }

/-- Deserialize a table row back into a memo. -/
def rowToMemo (r : SQLiteRow) : Memo :=
  { id := r.id, content := r.content, memoryType := r.memoryType,
    createdAt := r.createdAt, lastAccessedAt := r.lastAccessedAt,
    importance := r.importance,
    embedding := deserializeEmbedding r.embeddingBlob,
    metadata := r.metadata }

/-- `SQLiteDocumentStore.put`: transactional upsert — the serialized row
replaces any row with the same id. -/
def SQLiteDocumentStore.put (m : Memo) (db : SQLiteStore) : SQLiteStore :=
  { rows := memoToRow m :: db.rows.filter (fun r => r.id != m.id) }

/-- `SQLiteDocumentStore.get`: exact lookup and deserialization. -/
def SQLiteDocumentStore.get (id : Nat) (db : SQLiteStore) : Option Memo :=
  (db.rows.find? (fun r => r.id == id)).map rowToMemo

/-! ## Derived definitions used by the verification -/

/-- A finite sequence of `Memory.add` calls routed into working memory
(content, optional importance, metadata); a failed `add` leaves the state
unchanged. -/
def addWorkingSeq (cfg : Config)
    (inputs : List (String × Option ℚ × List (String × String)))
    (s : MemoryState) : MemoryState :=
  inputs.foldl (fun st inp =>
    match Memory.add cfg inp.1 (some .working) inp.2.1 inp.2.2 st with
    | .ok r => r.2
    | .error _ => st) s

/-- Whether a store holds a record with the given id. -/
def storeHasId (st : StoreState) (id : Nat) : Bool :=
  st.records.any (fun m => m.id == id)

/-- In how many of the four variant stores the id occurs (spec §3: ids are
globally unique, so a well-formed state has at most one owner). -/
def ownerCount (s : MemoryState) (id : Nat) : Nat :=
  (if storeHasId s.working id then 1 else 0) +
    (if storeHasId s.episodic id then 1 else 0) +
    (if storeHasId s.semantic id then 1 else 0) +
    (if storeHasId s.perceptual id then 1 else 0)

/-- Combined number of episodic and semantic records. -/
def epiSemCount (s : MemoryState) : Nat :=
  DocumentStore.count s.episodic + DocumentStore.count s.semantic

/-! ## Helper lemmas -/

lemma seqStarts_self (l : List Char) : seqStarts l l = true := by
  induction l with
  | nil => rfl
  | cons h t ih => simp [seqStarts, ih]

lemma seqContains_self (l : List Char) : seqContains l l = true := by
  cases l with
  | nil => rfl
  | cons h t => simp [seqContains, seqStarts_self]

lemma matchesQuery_self (q : String) (m : Memo) (h : m.content = q) :
    matchesQuery q m = true := by
  simp [matchesQuery, h, seqContains_self]

lemma length_insertBy (le : Memo → Memo → Bool) (a : Memo) (l : List Memo) :
    (insertBy le a l).length = l.length + 1 := by
  induction l with
  | nil => rfl
  | cons b bs ih =>
    simp only [insertBy]
    split
    · simp
    · simp [ih]

lemma length_sortBy (le : Memo → Memo → Bool) (l : List Memo) :
    (sortBy le l).length = l.length := by
  induction l with
  | nil => rfl
  | cons a as1 ih => simp [sortBy, length_insertBy, ih]

lemma length_evictKeep (cap : Nat) (l : List Memo) :
    (evictKeep cap l).length ≤ cap := by
  unfold evictKeep
  split
  · assumption
  · calc ((sortBy keepOrder l).take cap).length ≤ cap := List.length_take_le _ _

lemma mem_insertBy (le : Memo → Memo → Bool) (a m : Memo) :
    ∀ l : List Memo, m ∈ insertBy le a l → m = a ∨ m ∈ l := by
  intro l
  induction l with
  | nil => intro h; simpa [insertBy] using h
  | cons b bs ih =>
    intro h
    simp only [insertBy] at h
    split at h
    · rw [List.mem_cons] at h
      rcases h with h | h
      · exact Or.inl h
      · exact Or.inr h
    · rw [List.mem_cons] at h
      rcases h with h | h
      · exact Or.inr (by simp [h])
      · rcases ih h with h1 | h1
        · exact Or.inl h1
        · exact Or.inr (by simp [h1])

lemma mem_sortBy (le : Memo → Memo → Bool) (m : Memo) :
    ∀ l : List Memo, m ∈ sortBy le l → m ∈ l := by
  intro l
  induction l with
  | nil => intro h; simpa [sortBy] using h
  | cons a as1 ih =>
    intro h
    rcases mem_insertBy le a m (sortBy le as1) (by simpa [sortBy] using h) with h1 | h1
    · simp [h1]
    · simp [ih h1]

lemma mem_dedupeById (m : Memo) : ∀ l : List Memo, m ∈ dedupeById l → m ∈ l := by
  intro l
  induction l using dedupeById.induct with
  | case1 => intro h; simpa [dedupeById] using h
  | case2 a rest ih =>
    intro h
    rw [dedupeById, List.mem_cons] at h
    rcases h with h | h
    · simp [h]
    · exact List.mem_cons_of_mem a (List.mem_of_mem_filter (ih h))

lemma length_natToBytes (w n : Nat) : (natToBytes w n).length = w := by
  induction w generalizing n with
  | zero => rfl
  | succ w ih => simp [natToBytes, ih]

lemma bytesToNat_natToBytes (w n : Nat) (h : n < 256 ^ w) :
    bytesToNat (natToBytes w n) = n := by
  induction w generalizing n with
  | zero =>
    interval_cases n
    rfl
  | succ w ih =>
    have hdiv : n / 256 < 256 ^ w := by
      rw [Nat.div_lt_iff_lt_mul (by norm_num : 0 < 256)]
      calc n < 256 ^ (w + 1) := h
        _ = 256 ^ w * 256 := by ring
    simp only [natToBytes, bytesToNat, ih (n / 256) hdiv]
    omega

lemma deserialize_serialize (v : List Nat) (h : ∀ x ∈ v, x < 2 ^ 64) :
    deserializeEmbedding (serializeEmbedding v) = v := by
  induction v with
  | nil => simp [serializeEmbedding, deserializeEmbedding]
  | cons x xs ih =>
    have hx : x < 256 ^ 8 := by
      have := h x (by simp)
      calc x < 2 ^ 64 := this
        _ = 256 ^ 8 := by norm_num
    have hlen : (natToBytes 8 x).length = 8 := length_natToBytes 8 x
    have hser : serializeEmbedding (x :: xs) = natToBytes 8 x ++ serializeEmbedding xs := by
      simp [serializeEmbedding]
    have hne : natToBytes 8 x ++ serializeEmbedding xs ≠ [] := by
      simp [natToBytes]
    rw [hser, deserializeEmbedding, dif_neg hne]
    have htake : (natToBytes 8 x ++ serializeEmbedding xs).take 8 = natToBytes 8 x :=
      List.take_left' hlen
    have hdrop : (natToBytes 8 x ++ serializeEmbedding xs).drop 8 = serializeEmbedding xs :=
      List.drop_left' hlen
    rw [htake, hdrop, bytesToNat_natToBytes 8 x hx, ih (fun y hy => h y (by simp [hy]))]

lemma delete_fst (id : Nat) (st : StoreState) :
    (DocumentStore.delete id st).1 = storeHasId st id := by
  unfold DocumentStore.delete storeHasId
  split <;> simp_all

lemma storeHasId_delete (id : Nat) (st : StoreState) :
    storeHasId (DocumentStore.delete id st).2 id = false := by
  unfold DocumentStore.delete
  split
  · rename_i hany
    unfold storeHasId
    simp only [List.any_filter]
    apply List.any_eq_false.mpr
    intro m _
    cases hm : (m.id == id) <;> simp [bne, hm]
  · rename_i hany
    unfold storeHasId
    simpa using hany

lemma delete_of_not_found (id : Nat) (st : StoreState) (h : storeHasId st id = false) :
    DocumentStore.delete id st = (false, st) := by
  unfold DocumentStore.delete
  simp only [storeHasId] at h
  simp [h]

lemma delete_of_found (id : Nat) (st : StoreState) (h : storeHasId st id = true) :
    DocumentStore.delete id st =
      (true, { st with records := st.records.filter (fun m => m.id != id) }) := by
  unfold DocumentStore.delete
  simp only [storeHasId] at h
  simp [h]

/-! ## Claim theorems -/

/-- C8 counterexample: the claim's "returns `logger.bind(module=name)`
when a name is given" fails at `name = ""` — the source's `if name:`
truthiness check makes `get_logger("")` return the plain global logger,
not a handle bound to the empty module name. -/
theorem get_logger_empty_name_counterexample :
    (get_logger (some "") { sinks := [], initialized := true }).1 ≠
      LoggerHandle.bound "" := by
  decide

/-- C8 (amended): `get_logger` never returns an unconfigured logger —
every call leaves the logger initialized, a call on an uninitialized
logger first runs `setup_logger` with its default settings, and the
returned handle is `logger.bind(module=name)` when a non-empty name is
given and the global logger otherwise (for `None` or an empty name, per
the source's `if name:` truthiness check). -/
theorem get_logger_always_configured (name : Option String) (s : LogState) :
    (get_logger name s).2.initialized = true ∧
    (s.initialized = false → (get_logger name s).2 = setup_logger defaultSetupArgs s) ∧
    (s.initialized = true → (get_logger name s).2 = s) ∧
    (∀ n, n ≠ "" → (get_logger (some n) s).1 = LoggerHandle.bound n) ∧
    (get_logger (some "") s).1 = LoggerHandle.plain ∧
    (get_logger none s).1 = LoggerHandle.plain := by
  have hstate : (get_logger name s).2 =
      (if s.initialized then s else setup_logger defaultSetupArgs s) := by
    unfold get_logger
    cases name with
    | none => rfl
    | some n => by_cases hn : n = "" <;> simp [hn]
  refine ⟨?_, ?_, ?_, ?_, ?_, ?_⟩
  · rw [hstate]
    cases hi : s.initialized <;> simp [hi, setup_logger]
  · intro hi
    rw [hstate, hi]
    simp
  · intro hi
    rw [hstate, hi]
    simp
  · intro n hn
    unfold get_logger
    simp [hn]
  · unfold get_logger
    simp
  · unfold get_logger
    simp

/-- C9: `setup_logger` does not accumulate handlers — every call first
drops all existing sinks, then registers exactly one console (stderr)
sink plus exactly one file sink iff `log_to_file`; the sink count after
any call is one or two, never more, regardless of the prior state. -/
theorem setup_logger_sink_count (a : SetupArgs) (s : LogState) :
    (setup_logger a s).sinks.length = (if a.log_to_file then 2 else 1) ∧
    (setup_logger a s).sinks.length ≤ 2 ∧
    ((setup_logger a s).sinks.map Sink.target).head? = some SinkTarget.stderr ∧
    (List.countP (fun k => k.target == SinkTarget.stderr) (setup_logger a s).sinks = 1) := by
  unfold setup_logger
  cases hf : a.log_to_file <;> simp

/-- C10: `setup_logger` is total over `format_style` — with no
`custom_format`, any style outside default/simple/verbose silently falls
back to `DEFAULT_FORMAT` for every registered sink instead of raising. -/
theorem setup_logger_unknown_style_falls_back (a : SetupArgs) (s : LogState)
    (hc : a.custom_format = none)
    (h1 : a.format_style ≠ "default") (h2 : a.format_style ≠ "simple")
    (h3 : a.format_style ≠ "verbose") :
    chooseFormat a.custom_format a.format_style = DEFAULT_FORMAT ∧
    (setup_logger a s).sinks.map Sink.format =
      List.replicate (setup_logger a s).sinks.length DEFAULT_FORMAT := by
  have hcf : chooseFormat a.custom_format a.format_style = DEFAULT_FORMAT := by
    rw [hc]
    unfold chooseFormat
    simp [h1, h2, h3]
  refine ⟨hcf, ?_⟩
  unfold setup_logger
  cases hf : a.log_to_file <;> simp [hcf, List.replicate]

/-- Witness for C10 at a concrete unknown style. -/
theorem setup_logger_unknown_style_falls_back_witness :
    chooseFormat none "fancy" = DEFAULT_FORMAT ∧
    (setup_logger
        { level := "INFO", format_style := "fancy", custom_format := none,
          log_to_file := true, log_file_path := none }
        { sinks := [], initialized := false }).sinks.map Sink.format =
      List.replicate
        (setup_logger
          { level := "INFO", format_style := "fancy", custom_format := none,
            log_to_file := true, log_file_path := none }
          { sinks := [], initialized := false }).sinks.length DEFAULT_FORMAT :=
  setup_logger_unknown_style_falls_back
    { level := "INFO", format_style := "fancy", custom_format := none,
      log_to_file := true, log_file_path := none }
    { sinks := [], initialized := false }
    rfl (by decide) (by decide) (by decide)

/-- C7: for a memo with a non-empty embedding (64-bit words), a
`SQLiteDocumentStore.put` followed by `get` of the same id returns the
memo with its embedding intact — the serialize/deserialize cycle of the
embedding blob round-trips exactly. -/
theorem sqlite_put_get_embedding_roundtrip (m : Memo) (db : SQLiteStore)
    (hword : ∀ x ∈ m.embedding, x < 2 ^ 64) (hne : m.embedding ≠ []) :
    SQLiteDocumentStore.get m.id (SQLiteDocumentStore.put m db) = some m := by
  unfold SQLiteDocumentStore.get SQLiteDocumentStore.put
  have hfind :
      ((memoToRow m :: db.rows.filter (fun r => r.id != m.id)).find?
        (fun r => r.id == m.id)) = some (memoToRow m) := by
    simp [memoToRow]
  rw [hfind]
  simp [rowToMemo, memoToRow, deserialize_serialize m.embedding hword]

/-- Witness for C7 at a concrete memo and store. -/
theorem sqlite_put_get_embedding_roundtrip_witness :
    SQLiteDocumentStore.get 3
        (SQLiteDocumentStore.put
          { id := 3, content := "pic", memoryType := MemoryType.perceptual,
            createdAt := 0, lastAccessedAt := 0, importance := 1,
            embedding := [5, 2 ^ 64 - 1, 256], metadata := [] }
          { rows := [] }) =
      some
        { id := 3, content := "pic", memoryType := MemoryType.perceptual,
          createdAt := 0, lastAccessedAt := 0, importance := 1,
          embedding := [5, 2 ^ 64 - 1, 256], metadata := [] } :=
  sqlite_put_get_embedding_roundtrip
    { id := 3, content := "pic", memoryType := MemoryType.perceptual,
      createdAt := 0, lastAccessedAt := 0, importance := 1,
      embedding := [5, 2 ^ 64 - 1, 256], metadata := [] }
    { rows := [] } (by decide) (by decide)

lemma add_working_count_le (cfg : Config) (c : String) (impIn : Option ℚ)
    (md : List (String × String)) (s : MemoryState) (r : Nat × MemoryState)
    (h : Memory.add cfg c (some .working) impIn md s = .ok r) :
    DocumentStore.count r.2.working ≤ cfg.workingCapacity := by
  unfold Memory.add at h
  by_cases hc : c = ""
  · simp [hc] at h
  · rw [if_neg hc] at h
    by_cases hv : validImportance impIn = true
    · rw [hv] at h
      simp only [Bool.not_true, Bool.false_eq_true, if_false, Option.getD_some,
        variantStore, DocumentStore.put] at h
      by_cases hfail : s.working.failing = true
      · rw [if_pos hfail] at h
        simp at h
      · rw [if_neg hfail] at h
        simp only [Except.ok.injEq] at h
        subst h
        simp only [DocumentStore.count, setVariantStore, addEvictionPass]
        exact length_evictKeep _ _
    · rw [eq_false_of_ne_true hv] at h
      simp at h

lemma addWorkingSeq_count_le (cfg : Config)
    (inputs : List (String × Option ℚ × List (String × String))) :
    ∀ s : MemoryState, DocumentStore.count s.working ≤ cfg.workingCapacity →
      DocumentStore.count (addWorkingSeq cfg inputs s).working ≤ cfg.workingCapacity := by
  induction inputs with
  | nil => intro s hs; simpa [addWorkingSeq] using hs
  | cons inp rest ih =>
    intro s hs
    have hstep : addWorkingSeq cfg (inp :: rest) s =
        addWorkingSeq cfg rest
          (match Memory.add cfg inp.1 (some .working) inp.2.1 inp.2.2 s with
            | .ok r => r.2
            | .error _ => s) := by
      simp [addWorkingSeq]
    rw [hstep]
    cases hadd : Memory.add cfg inp.1 (some .working) inp.2.1 inp.2.2 s with
    | ok r =>
      exact ih r.2 (add_working_count_le cfg inp.1 inp.2.1 inp.2.2 s r hadd)
    | error e =>
      exact ih s hs

/-- C2: after any finite sequence of `add` calls routed into working
memory, starting from a fresh state, the working store's `count()` stays
within the configured working-memory capacity — each `add`'s
capacity-eviction pass preserves the invariant. -/
theorem working_capacity_invariant (cfg : Config)
    (inputs : List (String × Option ℚ × List (String × String))) :
    DocumentStore.count (addWorkingSeq cfg inputs initMemoryState).working ≤
      cfg.workingCapacity := by
  apply addWorkingSeq_count_le
  simp [initMemoryState, DocumentStore.count]

lemma epiSemCount_promoteOne (cfg : Config) (m : Memo) (s : MemoryState) :
    epiSemCount s ≤ epiSemCount (promoteOne cfg m s) := by
  unfold promoteOne epiSemCount DocumentStore.count
  split <;> simp <;> omega

lemma epiSemCount_promoteAll (cfg : Config) (cands : List Memo) :
    ∀ s : MemoryState, epiSemCount s ≤ epiSemCount (promoteAll cfg cands s) := by
  induction cands with
  | nil => intro s; simp [promoteAll]
  | cons c cs ih =>
    intro s
    have hstep : promoteAll cfg (c :: cs) s = promoteAll cfg cs (promoteOne cfg c s) := by
      simp [promoteAll]
    rw [hstep]
    exact le_trans (epiSemCount_promoteOne cfg c s) (ih (promoteOne cfg c s))

/-- C3: a consolidation promotion creates a new `Memo` — fresh id, the
target memory type, provenance metadata referencing the source id — and
leaves the source working record untouched; the combined count of
episodic plus semantic records never decreases under promotion. -/
theorem consolidation_promotion_properties (cfg : Config) (src : Memo) (s : MemoryState)
    (hid : src.id < s.nextId) :
    (promoteOne cfg src s).working = s.working ∧
    (∃ p, (promoteOne cfg src s).episodic.records = s.episodic.records ++ [p] ∧
      p.id = s.nextId ∧ p.id ≠ src.id ∧ p.memoryType = MemoryType.episodic ∧
      ("source_id", toString src.id) ∈ p.metadata) ∧
    epiSemCount s ≤ epiSemCount (promoteOne cfg src s) ∧
    (∀ cands, epiSemCount s ≤ epiSemCount (promoteAll cfg cands s)) := by
  refine ⟨?_, ?_, epiSemCount_promoteOne cfg src s, fun cands => epiSemCount_promoteAll cfg cands s⟩
  · unfold promoteOne
    split <;> rfl
  · refine ⟨promoteMemo src .episodic s.nextId s.clock, ?_, rfl, (Nat.ne_of_lt hid).symm, rfl, ?_⟩
    · unfold promoteOne
      split <;> rfl
    · unfold promoteMemo
      exact List.mem_cons_self _ _

/-- Witness for C3 at a concrete source memo and state. -/
theorem consolidation_promotion_properties_witness :
    (0 : Nat) < 1 ∧
    (promoteOne ⟨3, 7, 4, 7 / 10, fun _ => true⟩ ⟨0, "x", .working, 0, 0, 1, [], []⟩
        ⟨⟨[], false⟩, ⟨[], false⟩, ⟨[], false⟩, ⟨[], false⟩, 1, 0⟩).working =
      (⟨⟨[], false⟩, ⟨[], false⟩, ⟨[], false⟩, ⟨[], false⟩, 1, 0⟩ : MemoryState).working ∧
    epiSemCount ⟨⟨[], false⟩, ⟨[], false⟩, ⟨[], false⟩, ⟨[], false⟩, 1, 0⟩ ≤
      epiSemCount (promoteOne ⟨3, 7, 4, 7 / 10, fun _ => true⟩
        ⟨0, "x", .working, 0, 0, 1, [], []⟩
        ⟨⟨[], false⟩, ⟨[], false⟩, ⟨[], false⟩, ⟨[], false⟩, 1, 0⟩) :=
  ⟨by decide,
    (consolidation_promotion_properties ⟨3, 7, 4, 7 / 10, fun _ => true⟩
      ⟨0, "x", .working, 0, 0, 1, [], []⟩
      ⟨⟨[], false⟩, ⟨[], false⟩, ⟨[], false⟩, ⟨[], false⟩, 1, 0⟩ (by decide)).1,
    (consolidation_promotion_properties ⟨3, 7, 4, 7 / 10, fun _ => true⟩
      ⟨0, "x", .working, 0, 0, 1, [], []⟩
      ⟨⟨[], false⟩, ⟨[], false⟩, ⟨[], false⟩, ⟨[], false⟩, 1, 0⟩ (by decide)).2.2.1⟩

/-- C6: `Memory.consolidate` isolates per-variant failures — with a
failing working store and healthy siblings, the working failure is caught
and recorded in the summary, nothing is promoted, and the episodic,
semantic and perceptual consolidation passes still run. -/
theorem consolidate_partial_failure_isolation (cfg : Config) (s : MemoryState)
    (hw : s.working.failing = true) (he : s.episodic.failing = false)
    (hsem : s.semantic.failing = false) (hp : s.perceptual.failing = false) :
    (Memory.consolidate cfg s).1.errors = [MemoryType.working] ∧
    (Memory.consolidate cfg s).1.promoted = 0 ∧
    (Memory.consolidate cfg s).2.working = s.working ∧
    (Memory.consolidate cfg s).2.episodic.records =
      s.episodic.records.filter
        (fun m => decide (s.clock ≤ m.createdAt + cfg.episodicRetention)) ∧
    (Memory.consolidate cfg s).2.perceptual.records =
      evictKeep cfg.perceptualCapacity s.perceptual.records := by
  unfold Memory.consolidate consolidateWorking consolidateEpisodic
    consolidateSemantic consolidatePerceptual
  simp [hw, he, hsem, hp]

/-- Witness for C6 at a concrete state whose working store is failing. -/
theorem consolidate_partial_failure_isolation_witness :
    (Memory.consolidate ⟨3, 7, 4, 7 / 10, fun _ => true⟩
        ⟨⟨[], true⟩, ⟨[], false⟩, ⟨[], false⟩, ⟨[], false⟩, 0, 0⟩).1.errors =
      [MemoryType.working] ∧
    (Memory.consolidate ⟨3, 7, 4, 7 / 10, fun _ => true⟩
        ⟨⟨[], true⟩, ⟨[], false⟩, ⟨[], false⟩, ⟨[], false⟩, 0, 0⟩).2.working =
      (⟨⟨[], true⟩, ⟨[], false⟩, ⟨[], false⟩, ⟨[], false⟩, 0, 0⟩ : MemoryState).working :=
  ⟨(consolidate_partial_failure_isolation ⟨3, 7, 4, 7 / 10, fun _ => true⟩
      ⟨⟨[], true⟩, ⟨[], false⟩, ⟨[], false⟩, ⟨[], false⟩, 0, 0⟩
      rfl rfl rfl rfl).1,
    (consolidate_partial_failure_isolation ⟨3, 7, 4, 7 / 10, fun _ => true⟩
      ⟨⟨[], true⟩, ⟨[], false⟩, ⟨[], false⟩, ⟨[], false⟩, 0, 0⟩
      rfl rfl rfl rfl).2.2.1⟩

lemma ownerCount_zero (s : MemoryState) (id : Nat) (h : ownerCount s id = 0) :
    storeHasId s.working id = false ∧ storeHasId s.episodic id = false ∧
    storeHasId s.semantic id = false ∧ storeHasId s.perceptual id = false := by
  unfold ownerCount at h
  by_cases h1 : storeHasId s.working id <;>
    by_cases h2 : storeHasId s.episodic id <;>
      by_cases h3 : storeHasId s.semantic id <;>
        by_cases h4 : storeHasId s.perceptual id <;>
          simp_all

lemma forget_fst (id : Nat) (s : MemoryState) :
    (Memory.forget id s).1 =
      (storeHasId s.working id || storeHasId s.episodic id ||
        storeHasId s.semantic id || storeHasId s.perceptual id) := by
  unfold Memory.forget
  cases h1 : storeHasId s.working id
  · rw [delete_of_not_found _ _ h1]
    cases h2 : storeHasId s.episodic id
    · rw [delete_of_not_found _ _ h2]
      cases h3 : storeHasId s.semantic id
      · rw [delete_of_not_found _ _ h3]
        cases h4 : storeHasId s.perceptual id
        · rw [delete_of_not_found _ _ h4]
          simp
        · rw [delete_of_found _ _ h4]
          simp
      · rw [delete_of_found _ _ h3]
        simp
    · rw [delete_of_found _ _ h2]
      simp
  · rw [delete_of_found _ _ h1]
    simp

lemma ownerCount_forget (id : Nat) (s : MemoryState) (h : ownerCount s id ≤ 1) :
    ownerCount (Memory.forget id s).2 id = 0 := by
  unfold Memory.forget
  cases h1 : storeHasId s.working id
  · rw [delete_of_not_found _ _ h1]
    cases h2 : storeHasId s.episodic id
    · rw [delete_of_not_found _ _ h2]
      cases h3 : storeHasId s.semantic id
      · rw [delete_of_not_found _ _ h3]
        cases h4 : storeHasId s.perceptual id
        · rw [delete_of_not_found _ _ h4]
          simp [ownerCount, h1, h2, h3, h4]
        · rw [delete_of_found _ _ h4]
          have hdel : storeHasId (DocumentStore.delete id s.perceptual).2 id = false :=
            storeHasId_delete id s.perceptual
          rw [delete_of_found _ _ h4] at hdel
          simp [ownerCount, h1, h2, h3]
          simpa using hdel
      · rw [delete_of_found _ _ h3]
        have hdel : storeHasId (DocumentStore.delete id s.semantic).2 id = false :=
          storeHasId_delete id s.semantic
        rw [delete_of_found _ _ h3] at hdel
        have h4 : storeHasId s.perceptual id = false := by
          by_contra hc
          simp [ownerCount, h1, h2, h3, Bool.not_eq_false] at h
          simp [h] at hc
        simp [ownerCount, h1, h2, h4]
        simpa using hdel
    · rw [delete_of_found _ _ h2]
      have hdel : storeHasId (DocumentStore.delete id s.episodic).2 id = false :=
        storeHasId_delete id s.episodic
      rw [delete_of_found _ _ h2] at hdel
      have h34 : storeHasId s.semantic id = false ∧ storeHasId s.perceptual id = false := by
        by_cases h3 : storeHasId s.semantic id <;>
          by_cases h4 : storeHasId s.perceptual id <;>
            simp_all [ownerCount]
      simp [ownerCount, h1, h34.1, h34.2]
      simpa using hdel
  · rw [delete_of_found _ _ h1]
    have hdel : storeHasId (DocumentStore.delete id s.working).2 id = false :=
      storeHasId_delete id s.working
    rw [delete_of_found _ _ h1] at hdel
    have h234 : storeHasId s.episodic id = false ∧ storeHasId s.semantic id = false ∧
        storeHasId s.perceptual id = false := by
      by_cases h2 : storeHasId s.episodic id <;>
        by_cases h3 : storeHasId s.semantic id <;>
          by_cases h4 : storeHasId s.perceptual id <;>
            simp_all [ownerCount]
    simp [ownerCount, h234.1, h234.2.1, h234.2.2]
    simpa using hdel

/-- C4: `Memory.forget` is idempotent and non-raising on a missing id —
the first call returns whether a record existed and removes it, a second
call on the same id (or a call on an id never stored) returns false, and
`DocumentStore.delete` returns the boolean "did the record exist". -/
theorem forget_idempotent_and_boolean (s : MemoryState) (id : Nat)
    (h : ownerCount s id ≤ 1) :
    ((Memory.forget id s).1 = decide (0 < ownerCount s id)) ∧
    ownerCount (Memory.forget id s).2 id = 0 ∧
    (Memory.forget id (Memory.forget id s).2).1 = false ∧
    (∀ st : StoreState, (DocumentStore.delete id st).1 = storeHasId st id) := by
  have hzero := ownerCount_forget id s h
  refine ⟨?_, hzero, ?_, fun st => delete_fst id st⟩
  · rw [forget_fst]
    by_cases h1 : storeHasId s.working id <;>
      by_cases h2 : storeHasId s.episodic id <;>
        by_cases h3 : storeHasId s.semantic id <;>
          by_cases h4 : storeHasId s.perceptual id <;>
            simp_all [ownerCount]
  · rcases ownerCount_zero _ _ hzero with ⟨z1, z2, z3, z4⟩
    rw [forget_fst, z1, z2, z3, z4]
    rfl

/-- Witness for C4 at a concrete state holding one record with id 5. -/
theorem forget_idempotent_and_boolean_witness :
    (Memory.forget 5
        ⟨⟨[⟨5, "a", .working, 0, 0, 1, [], []⟩], false⟩, ⟨[], false⟩, ⟨[], false⟩,
          ⟨[], false⟩, 6, 1⟩).1 =
      decide (0 < ownerCount
        ⟨⟨[⟨5, "a", .working, 0, 0, 1, [], []⟩], false⟩, ⟨[], false⟩, ⟨[], false⟩,
          ⟨[], false⟩, 6, 1⟩ 5) ∧
    (Memory.forget 5
        (Memory.forget 5
          ⟨⟨[⟨5, "a", .working, 0, 0, 1, [], []⟩], false⟩, ⟨[], false⟩, ⟨[], false⟩,
            ⟨[], false⟩, 6, 1⟩).2).1 = false :=
  ⟨(forget_idempotent_and_boolean
      ⟨⟨[⟨5, "a", .working, 0, 0, 1, [], []⟩], false⟩, ⟨[], false⟩, ⟨[], false⟩,
        ⟨[], false⟩, 6, 1⟩ 5 (by decide)).1,
    (forget_idempotent_and_boolean
      ⟨⟨[⟨5, "a", .working, 0, 0, 1, [], []⟩], false⟩, ⟨[], false⟩, ⟨[], false⟩,
        ⟨[], false⟩, 6, 1⟩ 5 (by decide)).2.2.1⟩

lemma mem_variantRetrieve (t : MemoryType) (q : String) (limit : Nat) (st : StoreState)
    (m : Memo) (h : m ∈ variantRetrieve t q limit st) : m ∈ st.records := by
  cases t <;> simp only [variantRetrieve] at h
  · exact List.mem_of_mem_filter (mem_sortBy _ m _ (List.mem_of_mem_take h))
  · exact List.mem_of_mem_filter (mem_sortBy _ m _ (List.mem_of_mem_take h))
  · split at h <;> exact mem_sortBy _ m _ (List.mem_of_mem_take h)
  · split at h <;> exact mem_sortBy _ m _ (List.mem_of_mem_take h)

/-- C5: `Memory.add` with empty content fails with `InvalidInputError`
(persisting nothing), while `Memory.retrieve` with an empty query does
not fail — it returns at most `limit` salient records, each drawn from
one of the variant stores. -/
theorem add_empty_invalid_retrieve_empty_ok (cfg : Config) (mtIn : Option MemoryType)
    (impIn : Option ℚ) (md : List (String × String)) (s : MemoryState) (limit : Nat)
    (hw : s.working.failing = false) (he : s.episodic.failing = false)
    (hsem : s.semantic.failing = false) (hp : s.perceptual.failing = false) :
    Memory.add cfg "" mtIn impIn md s = .error MemoryError.invalidInput ∧
    (∃ out s1, Memory.retrieve "" none limit s = .ok (out, s1) ∧
      out.length ≤ limit ∧
      ∀ m ∈ out, ∃ t, ∃ m0 ∈ (variantStore t s).records, m0.id = m.id) := by
  constructor
  · simp [Memory.add]
  · unfold Memory.retrieve
    have hcond : (allMemoryTypes.any fun t => (variantStore t s).failing) = false := by
      simp [allMemoryTypes, variantStore, hw, he, hsem, hp]
    simp only [Option.getD_none, hcond, Bool.false_eq_true, if_false]
    refine ⟨_, _, rfl, ?_, ?_⟩
    · rw [List.length_map]
      exact List.length_take_le _ _
    · intro m hm
      rcases List.mem_map.mp hm with ⟨m1, hm1, rfl⟩
      have hm2 : m1 ∈ dedupeById (allMemoryTypes.flatMap fun t =>
          variantRetrieve t "" limit (variantStore t s)) :=
        mem_sortBy _ m1 _ (List.mem_of_mem_take hm1)
      have hm3 := mem_dedupeById m1 _ hm2
      rcases List.mem_flatMap.mp hm3 with ⟨t, _, hmem⟩
      exact ⟨t, m1, mem_variantRetrieve t "" limit _ m1 hmem, rfl⟩

/-- Witness for C5 at a concrete healthy state. -/
theorem add_empty_invalid_retrieve_empty_ok_witness :
    Memory.add ⟨3, 7, 4, 7 / 10, fun _ => true⟩ "" none none []
        ⟨⟨[], false⟩, ⟨[], false⟩, ⟨[], false⟩, ⟨[], false⟩, 0, 0⟩ =
      .error MemoryError.invalidInput ∧
    (∃ out s1, Memory.retrieve "" none 10
        ⟨⟨[], false⟩, ⟨[], false⟩, ⟨[], false⟩, ⟨[], false⟩, 0, 0⟩ = .ok (out, s1) ∧
      out.length ≤ 10 ∧
      ∀ m ∈ out, ∃ t, ∃ m0 ∈ (variantStore t
        (⟨⟨[], false⟩, ⟨[], false⟩, ⟨[], false⟩, ⟨[], false⟩, 0, 0⟩ : MemoryState)).records,
        m0.id = m.id) :=
  add_empty_invalid_retrieve_empty_ok ⟨3, 7, 4, 7 / 10, fun _ => true⟩ none none [] _ 10
    rfl rfl rfl rfl

lemma dedupeById_nil : dedupeById [] = [] := by
  rw [dedupeById]

lemma dedupeById_singleton (m : Memo) : dedupeById [m] = [m] := by
  rw [dedupeById]
  simp [dedupeById_nil]

/-- C1: for every non-empty content and each of the four memory types,
`Memory.add` followed by `Memory.retrieve` with a query matching that
content (the content itself) returns a sequence containing a memo whose
id is the one `add` returned. -/
theorem add_retrieve_returns_added_id (cfg : Config) (mt : MemoryType) (c : String)
    (impIn : Option ℚ) (md : List (String × String)) (limit : Nat)
    (hc : c ≠ "") (hi : validImportance impIn = true) (hl : 0 < limit)
    (hwc : 0 < cfg.workingCapacity) (hpc : 0 < cfg.perceptualCapacity) :
    ∃ rid s1, Memory.add cfg c (some mt) impIn md initMemoryState = .ok (rid, s1) ∧
      ∃ out s2, Memory.retrieve c none limit s1 = .ok (out, s2) ∧
        ∃ m ∈ out, m.id = rid := by
  have hwc1 : 1 ≤ cfg.workingCapacity := hwc
  have hpc1 : 1 ≤ cfg.perceptualCapacity := hpc
  obtain ⟨l, rfl⟩ : ∃ l, limit = l + 1 := ⟨limit - 1, by omega⟩
  cases mt
  case working =>
    have hadd : Memory.add cfg c (some .working) impIn md initMemoryState =
        .ok (0, ⟨⟨[⟨0, c, .working, 0, 0, impIn.getD (1 / 2 : ℚ), [], md⟩], false⟩,
          ⟨[], false⟩, ⟨[], false⟩, ⟨[], false⟩, 1, 1⟩) := by
      unfold Memory.add
      rw [if_neg hc, hi]
      simp [initMemoryState, variantStore, DocumentStore.put, setVariantStore,
        addEvictionPass, evictKeep, usesEmbedding, hwc1]
    refine ⟨0, _, hadd, ?_⟩
    unfold Memory.retrieve
    simp [allMemoryTypes, variantStore, variantRetrieve, matchesQuery_self, hc,
      sortBy, insertBy, dedupeById_singleton, List.take_succ_cons]
  case episodic =>
    have hadd : Memory.add cfg c (some .episodic) impIn md initMemoryState =
        .ok (0, ⟨⟨[], false⟩,
          ⟨[⟨0, c, .episodic, 0, 0, impIn.getD (1 / 2 : ℚ), [], md⟩], false⟩,
          ⟨[], false⟩, ⟨[], false⟩, 1, 1⟩) := by
      unfold Memory.add
      rw [if_neg hc, hi]
      simp [initMemoryState, variantStore, DocumentStore.put, setVariantStore,
        addEvictionPass, usesEmbedding]
    refine ⟨0, _, hadd, ?_⟩
    unfold Memory.retrieve
    simp [allMemoryTypes, variantStore, variantRetrieve, matchesQuery_self, hc,
      sortBy, insertBy, dedupeById_singleton, List.take_succ_cons]
  case semantic =>
    have hadd : Memory.add cfg c (some .semantic) impIn md initMemoryState =
        .ok (0, ⟨⟨[], false⟩, ⟨[], false⟩,
          ⟨[⟨0, c, .semantic, 0, 0, impIn.getD (1 / 2 : ℚ), embedText c, md⟩], false⟩,
          ⟨[], false⟩, 1, 1⟩) := by
      unfold Memory.add
      rw [if_neg hc, hi]
      simp [initMemoryState, variantStore, DocumentStore.put, setVariantStore,
        addEvictionPass, usesEmbedding]
    refine ⟨0, _, hadd, ?_⟩
    unfold Memory.retrieve
    simp [allMemoryTypes, variantStore, variantRetrieve, hc, sortBy, insertBy,
      dedupeById_singleton, List.take_succ_cons]
  case perceptual =>
    have hadd : Memory.add cfg c (some .perceptual) impIn md initMemoryState =
        .ok (0, ⟨⟨[], false⟩, ⟨[], false⟩, ⟨[], false⟩,
          ⟨[⟨0, c, .perceptual, 0, 0, impIn.getD (1 / 2 : ℚ), embedText c, md⟩], false⟩,
          1, 1⟩) := by
      unfold Memory.add
      rw [if_neg hc, hi]
      simp [initMemoryState, variantStore, DocumentStore.put, setVariantStore,
        addEvictionPass, evictKeep, usesEmbedding, hpc1]
    refine ⟨0, _, hadd, ?_⟩
    unfold Memory.retrieve
    simp [allMemoryTypes, variantStore, variantRetrieve, hc, sortBy, insertBy,
      dedupeById_singleton, List.take_succ_cons]

/-- Witness for C1 at a concrete episodic add/retrieve pair. -/
theorem add_retrieve_returns_added_id_witness :
    ∃ rid s1, Memory.add ⟨3, 7, 4, 7 / 10, fun _ => true⟩ "agents"
        (some MemoryType.episodic) none [] initMemoryState = .ok (rid, s1) ∧
      ∃ out s2, Memory.retrieve "agents" none 5 s1 = .ok (out, s2) ∧
        ∃ m ∈ out, m.id = rid :=
  add_retrieve_returns_added_id ⟨3, 7, 4, 7 / 10, fun _ => true⟩ MemoryType.episodic
    "agents" none [] 5 (by decide) (by decide) (by decide) (by decide) (by decide)
